import Mathlib

/-!
Verification of the Code Mood Analyzer core engine.

The definitions below are a shallow embedding of the JavaScript source:
the metrics collector `analyzeCode`, the mood classifier `determineMood`,
the suggestion generator `generateSuggestions` (all from `lib/analyzer.js`)
and the aggregation reduction `calculateAggregateMood` (from `src/cli.js`).
JavaScript numbers are modelled by `Nat`/`Int` for counts and scores and by
`Rat` for the ratio comparisons; text is modelled by `String`/`List Char`.
-/

/-- JavaScript `Math.round` for the non-negative rationals used here:
round half up, i.e. the floor of `q + 1/2`. -/
def jsRound (q : ℚ) : ℤ := ⌊q + 1/2⌋

/-- The character class of the JavaScript regex `\s` (ASCII whitespace). -/
def jsWs (c : Char) : Bool :=
  c = ' ' || c = '\t' || c = '\n' || c = '\r' || c = '\x0b' || c = '\x0c'

/-- The character class of the JavaScript regex `\w`: `[A-Za-z0-9_]`. -/
def isWordCharJS (c : Char) : Bool :=
  (c ≥ 'a' && c ≤ 'z') || (c ≥ 'A' && c ≤ 'Z') || (c ≥ '0' && c ≤ '9') || c = '_'

/-- Does the list start with the given character satisfying `p`? -/
def headSat (p : Char → Bool) : List Char → Bool
  | [] => false
  | c :: _ => p c

/-- Number of non-overlapping occurrences of the literal pattern `pat`
in `s`, scanning left to right: the semantics of JavaScript
`s.match(/pat/g).length` for a plain literal pattern. -/
def countOccs (pat : List Char) : List Char → ℕ
  | [] => 0
  | c :: rest =>
    if pat.isPrefixOf (c :: rest) then
      1 + countOccs pat (rest.drop (pat.length - 1))
    else
      countOccs pat rest
termination_by s => s.length
decreasing_by
  · simp only [List.length_cons, List.length_drop]
    omega
  · simp only [List.length_cons]
    omega

/-- Occurrences of the literal word `pat` at positions where both sides are
word boundaries (`\b`), tracking the previous character in `prev`:
the semantics of JavaScript `s.match(/\bpat\b/g).length`. -/
def countWordBAux (pat : List Char) (prev : Option Char) : List Char → ℕ
  | [] => 0
  | c :: rest =>
    let leftOk := match prev with
      | none => true
      | some p => !isWordCharJS p
    let rightOk := match (c :: rest).drop pat.length with
      | [] => true
      | d :: _ => !isWordCharJS d
    (if pat.isPrefixOf (c :: rest) && leftOk && rightOk then 1 else 0) +
      countWordBAux pat (some c) rest

/-- Word-boundary occurrence count over a whole text. -/
def countWordB (pat : List Char) (s : List Char) : ℕ := countWordBAux pat none s

/-- Does some suffix of the text satisfy `p`?  This models testing an
unanchored regex against a string. -/
def anySuffix (p : List Char → Bool) : List Char → Bool
  | [] => p []
  | c :: rest => p (c :: rest) || anySuffix p rest

/-- Does some suffix satisfy `p`, where `p` also sees the character
immediately before the suffix (for `\b` handling)? -/
def anySuffixPrev (p : Option Char → List Char → Bool) (prev : Option Char) :
    List Char → Bool
  | [] => p prev []
  | c :: rest => p prev (c :: rest) || anySuffixPrev p (some c) rest

/-- The positive vocabulary of `MOOD_INDICATORS.positive.words`. -/
def positiveWordsList : List String :=
  ["success", "happy", "great", "excellent", "good", "nice", "awesome",
   "perfect", "wonderful", "beautiful", "clean", "elegant"]

/-- The negative vocabulary of `MOOD_INDICATORS.negative.words`. -/
def negativeWordsList : List String :=
  ["hack", "fixme", "bug", "ugly", "terrible", "bad", "broken",
   "deprecated", "legacy", "wtf", "horrible", "nightmare"]

/-- The stress vocabulary of `MOOD_INDICATORS.stress.words`. -/
def stressWordsList : List String :=
  ["urgent", "asap", "critical", "emergency", "deadline", "hurry", "rush"]

/-- Total case-insensitive word-boundary matches of a vocabulary over the
lower-cased text (the `\bword\b` with flags `gi` loop of `analyzeCode`). -/
def countVocab (ws : List String) (lower : List Char) : ℕ :=
  (ws.map (fun w => countWordB w.data lower)).sum

/-- The test-call keywords of the `hasTests` regex. -/
def testKeywords : List (List Char) :=
  ["describe".data, "it".data, "test".data, "expect".data, "assert".data]

/-- Does the text (as chars) contain a match of
`(?:describe|it|test|expect|assert)\s*\(` — keyword, optional whitespace,
then an opening parenthesis, with no word-boundary requirement? -/
def hasTestsJS (s : List Char) : Bool :=
  anySuffix (fun t => testKeywords.any (fun kw =>
    kw.isPrefixOf t && ((t.drop kw.length).dropWhile jsWs).head? = some '(')) s

/-- Modelled from the spec side of claim C9: the same test-call detection
but requiring the keyword to be a standalone word, i.e. with a left word
boundary (start of text or a preceding non-word character). -/
def hasTestsWordBound (s : List Char) : Bool :=
  anySuffixPrev (fun prev t =>
    (match prev with
      | none => true
      | some p => !isWordCharJS p) &&
    testKeywords.any (fun kw =>
      kw.isPrefixOf t && ((t.drop kw.length).dropWhile jsWs).head? = some '(')) none s

/-- First alternative of the function-count regex: `function\s+\w+`. -/
def fnAlt1 (t : List Char) : Bool :=
  "function".data.isPrefixOf t &&
    headSat jsWs (t.drop 8) &&
    headSat isWordCharJS ((t.drop 8).dropWhile jsWs)

/-- Second alternative of the function-count regex: `=>\s*{`. -/
def fnAlt2 (t : List Char) : Bool :=
  "=>".data.isPrefixOf t &&
    headSat (fun c => c = '{') ((t.drop 2).dropWhile jsWs)

/-- Tail of the third alternative: `(?:function|\()`. -/
def fnTail (t : List Char) : Bool :=
  "function".data.isPrefixOf t || headSat (fun c => c = '(') t

/-- Optional `(?:async\s+)?` followed by `fnTail`.  When `async` is present
but not followed by whitespace, the regex engine falls back to matching
`fnTail` at the same position, which then necessarily fails on the
letter `a`; so committing to the consumed branch is equivalent. -/
def fnAsyncOpt (t : List Char) : Bool :=
  if "async".data.isPrefixOf t && headSat jsWs (t.drop 5) then
    fnTail ((t.drop 5).dropWhile jsWs)
  else
    fnTail t

/-- Third alternative of the function-count regex:
`\bconst\s+\w+\s*=\s*(?:async\s+)?(?:function|\()`. -/
def fnAlt3 (prev : Option Char) (t : List Char) : Bool :=
  (match prev with
    | none => true
    | some p => !isWordCharJS p) &&
  "const".data.isPrefixOf t &&
  headSat jsWs (t.drop 5) &&
  (let u := (t.drop 5).dropWhile jsWs
   headSat isWordCharJS u &&
   (let v := (u.dropWhile isWordCharJS).dropWhile jsWs
    headSat (fun c => c = '=') v &&
    fnAsyncOpt ((v.drop 1).dropWhile jsWs)))

/-- Per-line test of the function-definition regex
`/function\s+\w+|=>\s*{|\bconst\s+\w+\s*=\s*(?:async\s+)?(?:function|\()/`. -/
def fnDefTest (cs : List Char) : Bool :=
  anySuffixPrev (fun prev t => fnAlt1 t || fnAlt2 t || fnAlt3 prev t) none cs

/-- One keyword case of the variable-declaration regex. -/
def varKw (kw : List Char) (t : List Char) : Bool :=
  kw.isPrefixOf t &&
    headSat jsWs (t.drop kw.length) &&
    headSat isWordCharJS ((t.drop kw.length).dropWhile jsWs)

/-- Per-line test of the variable-declaration regex
`/(?:const|let|var)\s+\w+/` (no word boundary on the left). -/
def varDeclTest (cs : List Char) : Bool :=
  anySuffix (fun t => varKw "const".data t || varKw "let".data t || varKw "var".data t) cs

/-- The metrics record produced by `analyzeCode`. -/
structure Metrics where
  filename : String
  totalLines : ℕ
  codeLines : ℕ
  commentLines : ℕ
  blankLines : ℕ
  avgLineLength : ℕ
  longestLine : ℕ
  shortestNonEmptyLine : ℕ
  exclamationMarks : ℕ
  questionMarks : ℕ
  positiveWords : ℕ
  negativeWords : ℕ
  stressWords : ℕ
  todoCount : ℕ
  fixmeCount : ℕ
  hackCount : ℕ
  functionCount : ℕ
  variableDeclarations : ℕ
  nestingDepth : ℕ
  hasTests : Bool
  deriving Repr, DecidableEq

/-- JavaScript `String.prototype.trim`: drop whitespace from both ends. -/
def jsTrim (cs : List Char) : List Char :=
  ((cs.dropWhile jsWs).reverse.dropWhile jsWs).reverse

/-- JavaScript `code.split('\n')`: the newline-delimited segments, with an
empty input giving the single empty segment. -/
def splitNewlines : List Char → List (List Char)
  | [] => [[]]
  | c :: rest =>
    if c = '\n' then [] :: splitNewlines rest
    else
      match splitNewlines rest with
      | [] => [[c]]
      | l :: ls => (c :: l) :: ls

/-- The state of the per-line loop inside `analyzeCode`.  The JavaScript
`shortestNonEmptyLine` starts at `Infinity`, modelled by `none`; the running
brace balance `currentDepth` may go negative, hence `Int`. -/
structure ScanState where
  codeLines : ℕ
  commentLines : ℕ
  blankLines : ℕ
  longestLine : ℕ
  shortestOpt : Option ℕ
  exclamationMarks : ℕ
  questionMarks : ℕ
  currentDepth : ℤ
  maxDepth : ℤ
  totalLength : ℕ
  functionCount : ℕ
  variableDeclarations : ℕ
  deriving Repr, DecidableEq

/-- The initial loop state. -/
def initScan : ScanState :=
  { codeLines := 0, commentLines := 0, blankLines := 0, longestLine := 0,
    shortestOpt := none, exclamationMarks := 0, questionMarks := 0,
    currentDepth := 0, maxDepth := 0, totalLength := 0,
    functionCount := 0, variableDeclarations := 0 }

/-- Line classification block of the loop: trimmed empty is blank; a
trimmed line starting with `//`, `/*` or `*` is a comment; otherwise code. -/
def classifyStep (st : ScanState) (trimmed : List Char) : ScanState :=
  if trimmed = [] then
    { st with blankLines := st.blankLines + 1 }
  else if "//".data.isPrefixOf trimmed || "/*".data.isPrefixOf trimmed ||
      "*".data.isPrefixOf trimmed then
    { st with commentLines := st.commentLines + 1 }
  else
    { st with codeLines := st.codeLines + 1 }

/-- Line-length tracking block of the loop. -/
def lengthStep (st : ScanState) (trimmed : List Char) : ScanState :=
  if trimmed.length > 0 then
    { st with totalLength := st.totalLength + trimmed.length,
              longestLine := max st.longestLine trimmed.length,
              shortestOpt := some (match st.shortestOpt with
                | none => trimmed.length
                | some s => min s trimmed.length) }
  else st

/-- Punctuation counting block of the loop: count the raw line chars. -/
def punctStep (st : ScanState) (cs : List Char) : ScanState :=
  { st with exclamationMarks := st.exclamationMarks + cs.count '!',
            questionMarks := st.questionMarks + cs.count '?' }

/-- Brace-balance block of the loop: add the open-brace count, subtract the
close-brace count, and track the running maximum. -/
def depthStep (st : ScanState) (cs : List Char) : ScanState :=
  { st with currentDepth := st.currentDepth + (cs.count '{' : ℤ) - (cs.count '}' : ℤ),
            maxDepth := max st.maxDepth
              (st.currentDepth + (cs.count '{' : ℤ) - (cs.count '}' : ℤ)) }

/-- Function-definition heuristic block of the loop. -/
def fnStep (st : ScanState) (cs : List Char) : ScanState :=
  if fnDefTest cs then { st with functionCount := st.functionCount + 1 } else st

/-- Variable-declaration heuristic block of the loop. -/
def varStep (st : ScanState) (cs : List Char) : ScanState :=
  if varDeclTest cs then { st with variableDeclarations := st.variableDeclarations + 1 } else st

/-- One iteration of the `for (const line of lines)` loop of `analyzeCode`,
as the composition of its six blocks in source order. -/
def scanLine (st : ScanState) (line : List Char) : ScanState :=
  varStep (fnStep (depthStep (punctStep
    (lengthStep (classifyStep st (jsTrim line)) (jsTrim line)) line) line) line) line

/-- `analyzeCode(code, filename)` from `lib/analyzer.js`: split on newlines,
classify and measure each line, then run the full-text word, marker and
test-pattern passes. -/
def analyzeCode (code : String) (filename : String) : Metrics :=
  let lines := splitNewlines code.data
  let st := lines.foldl scanLine initScan
  let totalLines := lines.length
  let nonBlankLines := totalLines - st.blankLines
  let lower := code.data.map Char.toLower
  { filename := filename
    totalLines := totalLines
    codeLines := st.codeLines
    commentLines := st.commentLines
    blankLines := st.blankLines
    avgLineLength :=
      if nonBlankLines > 0 then
        (jsRound ((st.totalLength : ℚ) / (nonBlankLines : ℚ))).toNat
      else 0
    longestLine := st.longestLine
    shortestNonEmptyLine := st.shortestOpt.getD 0
    exclamationMarks := st.exclamationMarks
    questionMarks := st.questionMarks
    positiveWords := countVocab positiveWordsList lower
    negativeWords := countVocab negativeWordsList lower
    stressWords := countVocab stressWordsList lower
    todoCount := countOccs "todo".data lower
    fixmeCount := countOccs "fixme".data lower
    hackCount := countOccs "hack".data lower
    functionCount := st.functionCount
    variableDeclarations := st.variableDeclarations
    nestingDepth := st.maxDepth.toNat
    hasTests := hasTestsJS code.data }

/-- `MOOD_EMOJIS` lookup table. -/
def MOOD_EMOJIS (mood : String) : String :=
  if mood = "ecstatic" then "🎉"
  else if mood = "happy" then "😊"
  else if mood = "content" then "🙂"
  else if mood = "neutral" then "😐"
  else if mood = "stressed" then "😰"
  else if mood = "frustrated" then "😤"
  else if mood = "sad" then "😢"
  else if mood = "zen" then "🧘"
  else if mood = "chaotic" then "🌪️"
  else if mood = "mysterious" then "🔮"
  else ""

/-- `MOOD_DESCRIPTIONS` lookup table. -/
def MOOD_DESCRIPTIONS (mood : String) : String :=
  if mood = "ecstatic" then "This code is absolutely thriving! The developer was clearly in a great mood."
  else if mood = "happy" then "Pleasant vibes here! The code seems well-maintained and loved."
  else if mood = "content" then "Steady and stable. This code is doing its job without complaints."
  else if mood = "neutral" then "Neither happy nor sad. Just code being code."
  else if mood = "stressed" then "Uh oh! This code might be under some pressure. Watch out for deadlines!"
  else if mood = "frustrated" then "Someone was having a rough day. Consider some code therapy."
  else if mood = "sad" then "This code needs a hug. Maybe some refactoring would help?"
  else if mood = "zen" then "Perfectly balanced, as all code should be. Clean, documented, harmonious."
  else if mood = "chaotic" then "Wild and unpredictable! This code lives life on the edge."
  else if mood = "mysterious" then "Enigmatic code that keeps its secrets close. What does it really do?"
  else ""

/-- `commentRatio` as computed in `determineMood` and `generateSuggestions`:
`metrics.commentLines / (metrics.codeLines || 1)`, where `x || 1` maps the
falsy `0` to `1`. -/
def commentRatioJS (m : Metrics) : ℚ :=
  (m.commentLines : ℚ) / (if m.codeLines = 0 then 1 else (m.codeLines : ℚ))

/-- `punctuationDensity` as computed in `determineMood`:
`(exclamationMarks + questionMarks) / (totalLines || 1)`. -/
def punctuationDensityJS (m : Metrics) : ℚ :=
  ((m.exclamationMarks + m.questionMarks : ℕ) : ℚ) /
    (if m.totalLines = 0 then 1 else (m.totalLines : ℚ))

/-- The running `moodScore` accumulation of `determineMood`, before
clamping: start at 50 and apply each signed adjustment in source order. -/
def moodScoreOf (m : Metrics) : ℤ :=
  let s0 : ℤ := 50
  let s1 := s0 +
    (if commentRatioJS m ≥ (0.2 : ℚ) then 15
     else if commentRatioJS m ≥ (0.1 : ℚ) then 5
     else if commentRatioJS m < (0.05 : ℚ) then -10
     else 0)
  let s2 := s1 + (m.positiveWords : ℤ) * 5
  let s3 := s2 - (m.negativeWords : ℤ) * 8
  let s4 := s3 - (m.stressWords : ℤ) * 10
  let s5 := s4 - (m.todoCount : ℤ) * 3
  let s6 := s5 - (m.fixmeCount : ℤ) * 5
  let s7 := s6 - (m.hackCount : ℤ) * 7
  let s8 := s7 +
    (if m.nestingDepth > 5 then -15
     else if m.nestingDepth > 3 then -5
     else 0)
  let s9 := s8 +
    (if m.longestLine > 150 then -10
     else if m.longestLine > 100 then -5
     else 0)
  let s10 := s9 + (if punctuationDensityJS m > (0.5 : ℚ) then -15 else 0)
  s10 + (if m.hasTests then 10 else 0)

/-- The verdict returned by `determineMood`. -/
structure MoodResult where
  mood : String
  score : ℤ
  emoji : String
  description : String
  isZen : Bool
  isChaotic : Bool
  isMysterious : Bool
  deriving Repr, DecidableEq

/-- `determineMood(metrics)` from `lib/analyzer.js`: accumulate the mood
score, compute the three special-case flags, pick the mood by priority, and
return the verdict with the score clamped to `[0, 100]`. -/
def determineMood (m : Metrics) : MoodResult :=
  let moodScore := moodScoreOf m
  let isZen := decide (commentRatioJS m ≥ (0.15 : ℚ)) &&
               decide (m.nestingDepth ≤ 3) && decide (m.hackCount = 0)
  let isChaotic := decide (m.nestingDepth > 5) ||
                   decide (punctuationDensityJS m > (0.3 : ℚ))
  let isMysterious := decide (commentRatioJS m < (0.02 : ℚ)) &&
                      decide (m.totalLines > 50)
  let mood :=
    if isZen && decide (moodScore ≥ 60) then "zen"
    else if isChaotic && decide (moodScore < 40) then "chaotic"
    else if isMysterious then "mysterious"
    else if moodScore ≥ 80 then "ecstatic"
    else if moodScore ≥ 65 then "happy"
    else if moodScore ≥ 55 then "content"
    else if moodScore ≥ 45 then "neutral"
    else if moodScore ≥ 35 then "stressed"
    else if moodScore ≥ 25 then "frustrated"
    else "sad"
  { mood := mood
    score := max 0 (min 100 moodScore)
    emoji := MOOD_EMOJIS mood
    description := MOOD_DESCRIPTIONS mood
    isZen := isZen
    isChaotic := isChaotic
    isMysterious := isMysterious }

/-- `generateSuggestions(metrics, moodResult)` from `lib/analyzer.js`:
each check appends its message to the list when its condition holds. -/
def generateSuggestions (m : Metrics) (moodResult : MoodResult) : List String :=
  let suggestions : List String := []
  let suggestions := suggestions ++
    (if commentRatioJS m < (0.1 : ℚ) then
      ["💡 Consider adding more comments to explain your code\x27s intent"]
    else [])
  let suggestions := suggestions ++
    (if m.nestingDepth > 4 then
      ["🔄 Deep nesting detected! Consider extracting some logic into separate functions"]
    else [])
  let suggestions := suggestions ++
    (if m.hackCount > 0 then
      ["🔧 You have " ++ toString m.hackCount ++ " hack(s) in your code. Time for some cleanup?"]
    else [])
  let suggestions := suggestions ++
    (if m.todoCount > 3 then
      ["📝 Lots of TODOs piling up! Maybe tackle a few today?"]
    else [])
  let suggestions := suggestions ++
    (if m.longestLine > 120 then
      ["📏 Some lines are quite long. Consider breaking them up for readability"]
    else [])
  let suggestions := suggestions ++
    (if moodResult.mood = "zen" then
      ["✨ Your code is in a great state! Keep up the good work"]
    else [])
  let suggestions := suggestions ++
    (if moodResult.mood = "mysterious" then
      ["🔮 Your code is shrouded in mystery. Future you will thank present you for comments!"]
    else [])
  suggestions ++
    (if !m.hasTests && m.functionCount > 3 then
      ["🧪 No tests detected! Consider adding some to ensure reliability"]
    else [])

/-- The comment ratio as the spec words it: `commentLines / max(codeLines, 1)`. -/
def commentRatioSpec (m : Metrics) : ℚ :=
  (m.commentLines : ℚ) / max (m.codeLines : ℚ) 1

/-- The punctuation density as the spec words it:
`(exclamationMarks + questionMarks) / max(totalLines, 1)`. -/
def punctuationDensitySpec (m : Metrics) : ℚ :=
  ((m.exclamationMarks + m.questionMarks : ℕ) : ℚ) / max (m.totalLines : ℚ) 1

/-- The raw (pre-clamp) score as the spec describes it: 50 plus the sum of
all signed adjustments. -/
def rawScoreSpec (m : Metrics) : ℤ :=
  50
  + (if commentRatioSpec m ≥ (0.2 : ℚ) then 15
     else if commentRatioSpec m ≥ (0.1 : ℚ) then 5
     else if commentRatioSpec m < (0.05 : ℚ) then -10
     else 0)
  + 5 * (m.positiveWords : ℤ) - 8 * (m.negativeWords : ℤ) - 10 * (m.stressWords : ℤ)
  - 3 * (m.todoCount : ℤ) - 5 * (m.fixmeCount : ℤ) - 7 * (m.hackCount : ℤ)
  + (if m.nestingDepth > 5 then -15 else if m.nestingDepth > 3 then -5 else 0)
  + (if m.longestLine > 150 then -10 else if m.longestLine > 100 then -5 else 0)
  + (if punctuationDensitySpec m > (0.5 : ℚ) then -15 else 0)
  + (if m.hasTests then 10 else 0)

/-- The zen flag as the spec words it. -/
def isZenSpec (m : Metrics) : Bool :=
  decide (commentRatioSpec m ≥ (0.15 : ℚ)) && decide (m.nestingDepth ≤ 3) &&
    decide (m.hackCount = 0)

/-- The chaotic flag as the spec words it. -/
def isChaoticSpec (m : Metrics) : Bool :=
  decide (m.nestingDepth > 5) || decide (punctuationDensitySpec m > (0.3 : ℚ))

/-- The mysterious flag as the spec words it. -/
def isMysteriousSpec (m : Metrics) : Bool :=
  decide (commentRatioSpec m < (0.02 : ℚ)) && decide (m.totalLines > 50)

/-- The mood-selection priority chain of the spec, applied to the pre-clamp
score `r`. -/
def moodSelectSpec (m : Metrics) (r : ℤ) : String :=
  if isZenSpec m && decide (r ≥ 60) then "zen"
  else if isChaoticSpec m && decide (r < 40) then "chaotic"
  else if isMysteriousSpec m then "mysterious"
  else if r ≥ 80 then "ecstatic"
  else if r ≥ 65 then "happy"
  else if r ≥ 55 then "content"
  else if r ≥ 45 then "neutral"
  else if r ≥ 35 then "stressed"
  else if r ≥ 25 then "frustrated"
  else "sad"

lemma commentRatioJS_eq (m : Metrics) : commentRatioJS m = commentRatioSpec m := by
  unfold commentRatioJS commentRatioSpec
  rcases Nat.eq_zero_or_pos m.codeLines with h | h
  · simp [h]
  · have h0 : m.codeLines ≠ 0 := by omega
    have h1 : (1 : ℚ) ≤ (m.codeLines : ℚ) := by exact_mod_cast h
    simp [h0, max_eq_left h1]

lemma punctuationDensityJS_eq (m : Metrics) :
    punctuationDensityJS m = punctuationDensitySpec m := by
  unfold punctuationDensityJS punctuationDensitySpec
  rcases Nat.eq_zero_or_pos m.totalLines with h | h
  · simp [h]
  · have h0 : m.totalLines ≠ 0 := by omega
    have h1 : (1 : ℚ) ≤ (m.totalLines : ℚ) := by exact_mod_cast h
    simp [h0, max_eq_left h1]

lemma moodScoreOf_eq (m : Metrics) : moodScoreOf m = rawScoreSpec m := by
  simp only [moodScoreOf, rawScoreSpec, commentRatioJS_eq, punctuationDensityJS_eq]
  ring

lemma determineMood_score_eq (m : Metrics) :
    (determineMood m).score = max 0 (min 100 (rawScoreSpec m)) := by
  simp [determineMood, moodScoreOf_eq]

lemma determineMood_isZen_eq (m : Metrics) :
    (determineMood m).isZen = isZenSpec m := by
  simp [determineMood, isZenSpec, commentRatioJS_eq]

lemma determineMood_isChaotic_eq (m : Metrics) :
    (determineMood m).isChaotic = isChaoticSpec m := by
  simp [determineMood, isChaoticSpec, punctuationDensityJS_eq]

lemma determineMood_isMysterious_eq (m : Metrics) :
    (determineMood m).isMysterious = isMysteriousSpec m := by
  simp [determineMood, isMysteriousSpec, commentRatioJS_eq]

lemma determineMood_mood_eq (m : Metrics) :
    (determineMood m).mood = moodSelectSpec m (rawScoreSpec m) := by
  simp only [determineMood, moodSelectSpec, moodScoreOf_eq, isZenSpec, isChaoticSpec,
    isMysteriousSpec, commentRatioJS_eq, punctuationDensityJS_eq]

/-- The suggestion list as the spec describes it: the eight independent
checks in their fixed order, each contributing its message when its
condition holds. -/
def suggestSpec (m : Metrics) (v : MoodResult) : List String :=
  (if commentRatioSpec m < (0.1 : ℚ) then
    ["💡 Consider adding more comments to explain your code\x27s intent"] else [])
  ++ (if m.nestingDepth > 4 then
    ["🔄 Deep nesting detected! Consider extracting some logic into separate functions"] else [])
  ++ (if m.hackCount > 0 then
    ["🔧 You have " ++ toString m.hackCount ++ " hack(s) in your code. Time for some cleanup?"] else [])
  ++ (if m.todoCount > 3 then
    ["📝 Lots of TODOs piling up! Maybe tackle a few today?"] else [])
  ++ (if m.longestLine > 120 then
    ["📏 Some lines are quite long. Consider breaking them up for readability"] else [])
  ++ (if v.mood = "zen" then
    ["✨ Your code is in a great state! Keep up the good work"] else [])
  ++ (if v.mood = "mysterious" then
    ["🔮 Your code is shrouded in mystery. Future you will thank present you for comments!"] else [])
  ++ (if !m.hasTests && m.functionCount > 3 then
    ["🧪 No tests detected! Consider adding some to ensure reliability"] else [])

/-- A metrics record that is both mysterious (no comments, more than 50
lines) and chaotic (nesting depth above 5) with a pre-clamp score below 40:
the chaotic branch wins the priority race. -/
def mysteriousChaoticMetrics : Metrics :=
  { filename := "mystery.js", totalLines := 51, codeLines := 40,
    commentLines := 0, blankLines := 11, avgLineLength := 10,
    longestLine := 10, shortestNonEmptyLine := 5, exclamationMarks := 0,
    questionMarks := 0, positiveWords := 0, negativeWords := 0,
    stressWords := 0, todoCount := 0, fixmeCount := 0, hackCount := 0,
    functionCount := 0, variableDeclarations := 0, nestingDepth := 6,
    hasTests := false }

/-- A mysterious metrics record that is not chaotic: shallow nesting and
no punctuation. -/
def mysteriousCalmMetrics : Metrics :=
  { filename := "calm.js", totalLines := 100, codeLines := 99,
    commentLines := 0, blankLines := 1, avgLineLength := 20,
    longestLine := 100, shortestNonEmptyLine := 5, exclamationMarks := 0,
    questionMarks := 0, positiveWords := 0, negativeWords := 0,
    stressWords := 0, todoCount := 0, fixmeCount := 0, hackCount := 0,
    functionCount := 0, variableDeclarations := 0, nestingDepth := 3,
    hasTests := false }

/-- Claim C1: for every metrics record, the reported score of
`determineMood` equals the spec accumulation (start at 50, comment-ratio
band, word weights, marker weights, nesting, line length, punctuation
density, tests bonus) clamped to `[0, 100]`, while the mood selection uses
the pre-clamp value. -/
theorem claimC1 (m : Metrics) :
    (determineMood m).score = max 0 (min 100 (rawScoreSpec m)) ∧
    (determineMood m).mood = moodSelectSpec m (rawScoreSpec m) :=
  ⟨determineMood_score_eq m, determineMood_mood_eq m⟩

/-- Claim C2: for every metrics record, `determineMood` selects the mood by
the exact priority order (zen, chaotic, mysterious, then the score ladder)
applied to the pre-clamp score, and the three flags equal their spec
formulas, computed independently of the running score and returned in the
verdict. -/
theorem claimC2 (m : Metrics) :
    (determineMood m).mood = moodSelectSpec m (rawScoreSpec m) ∧
    (determineMood m).isZen = isZenSpec m ∧
    (determineMood m).isChaotic = isChaoticSpec m ∧
    (determineMood m).isMysterious = isMysteriousSpec m :=
  ⟨determineMood_mood_eq m, determineMood_isZen_eq m,
   determineMood_isChaotic_eq m, determineMood_isMysterious_eq m⟩

/-- Claim C4, counterexample: a record with comment ratio below 0.02 and
more than 50 total lines for which the mood is `chaotic`, not `mysterious`
(the chaotic branch has higher priority and its guard holds). -/
theorem claimC4_counterexample :
    commentRatioSpec mysteriousChaoticMetrics < (0.02 : ℚ) ∧
    mysteriousChaoticMetrics.totalLines > 50 ∧
    (determineMood mysteriousChaoticMetrics).isMysterious = true ∧
    (determineMood mysteriousChaoticMetrics).mood = "chaotic" ∧
    (determineMood mysteriousChaoticMetrics).mood ≠ "mysterious" := by
  have hraw : rawScoreSpec mysteriousChaoticMetrics = 25 := by
    norm_num [rawScoreSpec, commentRatioSpec, punctuationDensitySpec,
      mysteriousChaoticMetrics]
  have hmood : (determineMood mysteriousChaoticMetrics).mood = "chaotic" := by
    rw [determineMood_mood_eq, hraw]
    norm_num [moodSelectSpec, isZenSpec, isChaoticSpec, isMysteriousSpec,
      commentRatioSpec, punctuationDensitySpec, mysteriousChaoticMetrics]
  refine ⟨?_, by decide, ?_, hmood, ?_⟩
  · norm_num [commentRatioSpec, mysteriousChaoticMetrics]
  · rw [determineMood_isMysterious_eq]
    norm_num [isMysteriousSpec, commentRatioSpec, mysteriousChaoticMetrics]
  · rw [hmood]
    decide

/-- Claim C4 as amended: with comment ratio below 0.02 and more than 50
total lines, `isMysterious` is true and the mood is `mysterious` unless the
higher-priority chaotic branch fires (chaotic flag with pre-clamp score
below 40), in which case it is `chaotic`; the zen branch cannot fire. -/
theorem claimC4_amended (m : Metrics)
    (h1 : commentRatioSpec m < (0.02 : ℚ)) (h2 : m.totalLines > 50) :
    (determineMood m).isMysterious = true ∧
    (determineMood m).mood =
      (if isChaoticSpec m && decide (rawScoreSpec m < 40) then "chaotic"
       else "mysterious") := by
  constructor
  · rw [determineMood_isMysterious_eq]
    simp [isMysteriousSpec, h1, h2]
  · rw [determineMood_mood_eq]
    have hz : ¬(commentRatioSpec m ≥ (0.15 : ℚ)) := by
      intro hge
      have : (0.15 : ℚ) < (0.02 : ℚ) := lt_of_le_of_lt hge h1
      norm_num at this
    simp [moodSelectSpec, isZenSpec, isMysteriousSpec, hz, h1, h2]

/-- Witness for the amended claim C4 at a concrete mysterious,
non-chaotic record. -/
theorem claimC4_amended_witness :
    commentRatioSpec mysteriousCalmMetrics < (0.02 : ℚ) ∧
    mysteriousCalmMetrics.totalLines > 50 ∧
    ((determineMood mysteriousCalmMetrics).isMysterious = true ∧
     (determineMood mysteriousCalmMetrics).mood =
       (if isChaoticSpec mysteriousCalmMetrics &&
           decide (rawScoreSpec mysteriousCalmMetrics < 40) then "chaotic"
        else "mysterious")) :=
  ⟨by norm_num [commentRatioSpec, mysteriousCalmMetrics], by decide,
   claimC4_amended mysteriousCalmMetrics
     (by norm_num [commentRatioSpec, mysteriousCalmMetrics]) (by decide)⟩

/-- Claim C8: the verdict of `determineMood` depends only on the fourteen
fields it reads; two records agreeing on them get identical verdicts,
whatever their filename, average line length, shortest line, blank lines,
function count and variable declarations. -/
theorem claimC8 (m₁ m₂ : Metrics)
    (h1 : m₁.commentLines = m₂.commentLines) (h2 : m₁.codeLines = m₂.codeLines)
    (h3 : m₁.positiveWords = m₂.positiveWords) (h4 : m₁.negativeWords = m₂.negativeWords)
    (h5 : m₁.stressWords = m₂.stressWords) (h6 : m₁.todoCount = m₂.todoCount)
    (h7 : m₁.fixmeCount = m₂.fixmeCount) (h8 : m₁.hackCount = m₂.hackCount)
    (h9 : m₁.nestingDepth = m₂.nestingDepth) (h10 : m₁.longestLine = m₂.longestLine)
    (h11 : m₁.exclamationMarks = m₂.exclamationMarks) (h12 : m₁.questionMarks = m₂.questionMarks)
    (h13 : m₁.totalLines = m₂.totalLines) (h14 : m₁.hasTests = m₂.hasTests) :
    determineMood m₁ = determineMood m₂ := by
  simp only [determineMood, moodScoreOf, commentRatioJS, punctuationDensityJS,
    h1, h2, h3, h4, h5, h6, h7, h8, h9, h10, h11, h12, h13, h14]

/-- A record with scoring-relevant fields fixed and the ignored fields set
one way. -/
def metricsVariantA : Metrics :=
  { filename := "a.js", totalLines := 40, codeLines := 30,
    commentLines := 6, blankLines := 4, avgLineLength := 33,
    longestLine := 90, shortestNonEmptyLine := 2, exclamationMarks := 1,
    questionMarks := 2, positiveWords := 1, negativeWords := 1,
    stressWords := 0, todoCount := 1, fixmeCount := 0, hackCount := 0,
    functionCount := 2, variableDeclarations := 5, nestingDepth := 2,
    hasTests := true }

/-- The same scoring-relevant fields with every ignored field changed. -/
def metricsVariantB : Metrics :=
  { filename := "b.py", totalLines := 40, codeLines := 30,
    commentLines := 6, blankLines := 0, avgLineLength := 7,
    longestLine := 90, shortestNonEmptyLine := 77, exclamationMarks := 1,
    questionMarks := 2, positiveWords := 1, negativeWords := 1,
    stressWords := 0, todoCount := 1, fixmeCount := 0, hackCount := 0,
    functionCount := 19, variableDeclarations := 0, nestingDepth := 2,
    hasTests := true }

/-- Witness for claim C8 at two concrete records that differ in every
ignored field. -/
theorem claimC8_witness :
    determineMood metricsVariantA = determineMood metricsVariantB :=
  claimC8 metricsVariantA metricsVariantB
    rfl rfl rfl rfl rfl rfl rfl rfl rfl rfl rfl rfl rfl rfl

/-- Claim C9: the test-detection heuristic has no left word boundary: on
the single line `edit(x);` — where no test keyword occurs as a standalone
word before an opening parenthesis, as witnessed by the word-bounded
variant returning false — `analyzeCode` still reports `hasTests = true`,
because `it(` occurs inside `edit(`. -/
theorem claimC9 :
    (analyzeCode "edit(x);" "snippet.js").hasTests = true ∧
    hasTestsWordBound "edit(x);".data = false := by
  decide

/-- Claim C6: for every metrics record and verdict, `generateSuggestions`
returns exactly the suggestions whose conditions hold, in the fixed
eight-check order, the checks being independent and non-exclusive. -/
theorem claimC6 (m : Metrics) (v : MoodResult) :
    generateSuggestions m v = suggestSpec m v := by
  simp only [generateSuggestions, suggestSpec, commentRatioJS_eq,
    List.nil_append, List.append_assoc]

/-- Classification predicate on a trimmed line: blank. -/
def isBlankT (t : List Char) : Bool := t == []

/-- Classification predicate on a trimmed line: comment. -/
def isCommentT (t : List Char) : Bool :=
  !(t == []) && ("//".data.isPrefixOf t || "/*".data.isPrefixOf t || "*".data.isPrefixOf t)

/-- Classification predicate on a trimmed line: code. -/
def isCodeT (t : List Char) : Bool :=
  !(t == []) && !("//".data.isPrefixOf t || "/*".data.isPrefixOf t || "*".data.isPrefixOf t)

/-- A raw line is blank when its trim is empty. -/
def isBlankLine (l : List Char) : Bool := isBlankT (jsTrim l)

/-- A raw line is a comment when its trim starts with a comment marker. -/
def isCommentLine (l : List Char) : Bool := isCommentT (jsTrim l)

/-- A raw line is code when it is neither blank nor a comment. -/
def isCodeLine (l : List Char) : Bool := isCodeT (jsTrim l)

lemma classifyStep_blankLines (st : ScanState) (t : List Char) :
    (classifyStep st t).blankLines = st.blankLines + (if isBlankT t then 1 else 0) := by
  unfold classifyStep isBlankT
  split_ifs <;> simp_all

lemma classifyStep_commentLines (st : ScanState) (t : List Char) :
    (classifyStep st t).commentLines = st.commentLines + (if isCommentT t then 1 else 0) := by
  unfold classifyStep isCommentT
  split_ifs <;> simp_all

lemma classifyStep_codeLines (st : ScanState) (t : List Char) :
    (classifyStep st t).codeLines = st.codeLines + (if isCodeT t then 1 else 0) := by
  unfold classifyStep isCodeT
  split_ifs <;> simp_all [← List.isPrefixOf_iff_prefix]

lemma classifyStep_totalLength (st : ScanState) (t : List Char) :
    (classifyStep st t).totalLength = st.totalLength := by
  unfold classifyStep; split_ifs <;> rfl

lemma classifyStep_longestLine (st : ScanState) (t : List Char) :
    (classifyStep st t).longestLine = st.longestLine := by
  unfold classifyStep; split_ifs <;> rfl

lemma classifyStep_shortestOpt (st : ScanState) (t : List Char) :
    (classifyStep st t).shortestOpt = st.shortestOpt := by
  unfold classifyStep; split_ifs <;> rfl

lemma lengthStep_blankLines (st : ScanState) (t : List Char) :
    (lengthStep st t).blankLines = st.blankLines := by
  unfold lengthStep; split_ifs <;> rfl

lemma lengthStep_commentLines (st : ScanState) (t : List Char) :
    (lengthStep st t).commentLines = st.commentLines := by
  unfold lengthStep; split_ifs <;> rfl

lemma lengthStep_codeLines (st : ScanState) (t : List Char) :
    (lengthStep st t).codeLines = st.codeLines := by
  unfold lengthStep; split_ifs <;> rfl

lemma lengthStep_of_blank (st : ScanState) (t : List Char) (h : t = []) :
    lengthStep st t = st := by
  subst h; rfl

lemma punctStep_blankLines (st : ScanState) (cs : List Char) :
    (punctStep st cs).blankLines = st.blankLines := rfl

lemma punctStep_commentLines (st : ScanState) (cs : List Char) :
    (punctStep st cs).commentLines = st.commentLines := rfl

lemma punctStep_codeLines (st : ScanState) (cs : List Char) :
    (punctStep st cs).codeLines = st.codeLines := rfl

lemma punctStep_totalLength (st : ScanState) (cs : List Char) :
    (punctStep st cs).totalLength = st.totalLength := rfl

lemma punctStep_longestLine (st : ScanState) (cs : List Char) :
    (punctStep st cs).longestLine = st.longestLine := rfl

lemma punctStep_shortestOpt (st : ScanState) (cs : List Char) :
    (punctStep st cs).shortestOpt = st.shortestOpt := rfl

lemma depthStep_blankLines (st : ScanState) (cs : List Char) :
    (depthStep st cs).blankLines = st.blankLines := rfl

lemma depthStep_commentLines (st : ScanState) (cs : List Char) :
    (depthStep st cs).commentLines = st.commentLines := rfl

lemma depthStep_codeLines (st : ScanState) (cs : List Char) :
    (depthStep st cs).codeLines = st.codeLines := rfl

lemma depthStep_totalLength (st : ScanState) (cs : List Char) :
    (depthStep st cs).totalLength = st.totalLength := rfl

lemma depthStep_longestLine (st : ScanState) (cs : List Char) :
    (depthStep st cs).longestLine = st.longestLine := rfl

lemma depthStep_shortestOpt (st : ScanState) (cs : List Char) :
    (depthStep st cs).shortestOpt = st.shortestOpt := rfl

lemma fnStep_blankLines (st : ScanState) (cs : List Char) :
    (fnStep st cs).blankLines = st.blankLines := by
  unfold fnStep; split_ifs <;> rfl

lemma fnStep_commentLines (st : ScanState) (cs : List Char) :
    (fnStep st cs).commentLines = st.commentLines := by
  unfold fnStep; split_ifs <;> rfl

lemma fnStep_codeLines (st : ScanState) (cs : List Char) :
    (fnStep st cs).codeLines = st.codeLines := by
  unfold fnStep; split_ifs <;> rfl

lemma fnStep_totalLength (st : ScanState) (cs : List Char) :
    (fnStep st cs).totalLength = st.totalLength := by
  unfold fnStep; split_ifs <;> rfl

lemma fnStep_longestLine (st : ScanState) (cs : List Char) :
    (fnStep st cs).longestLine = st.longestLine := by
  unfold fnStep; split_ifs <;> rfl

lemma fnStep_shortestOpt (st : ScanState) (cs : List Char) :
    (fnStep st cs).shortestOpt = st.shortestOpt := by
  unfold fnStep; split_ifs <;> rfl

lemma varStep_blankLines (st : ScanState) (cs : List Char) :
    (varStep st cs).blankLines = st.blankLines := by
  unfold varStep; split_ifs <;> rfl

lemma varStep_commentLines (st : ScanState) (cs : List Char) :
    (varStep st cs).commentLines = st.commentLines := by
  unfold varStep; split_ifs <;> rfl

lemma varStep_codeLines (st : ScanState) (cs : List Char) :
    (varStep st cs).codeLines = st.codeLines := by
  unfold varStep; split_ifs <;> rfl

lemma varStep_totalLength (st : ScanState) (cs : List Char) :
    (varStep st cs).totalLength = st.totalLength := by
  unfold varStep; split_ifs <;> rfl

lemma varStep_longestLine (st : ScanState) (cs : List Char) :
    (varStep st cs).longestLine = st.longestLine := by
  unfold varStep; split_ifs <;> rfl

lemma varStep_shortestOpt (st : ScanState) (cs : List Char) :
    (varStep st cs).shortestOpt = st.shortestOpt := by
  unfold varStep; split_ifs <;> rfl

lemma scanLine_blankLines (st : ScanState) (l : List Char) :
    (scanLine st l).blankLines = st.blankLines + (if isBlankLine l then 1 else 0) := by
  simp only [scanLine, varStep_blankLines, fnStep_blankLines, depthStep_blankLines,
    punctStep_blankLines, lengthStep_blankLines, classifyStep_blankLines, isBlankLine]

lemma scanLine_commentLines (st : ScanState) (l : List Char) :
    (scanLine st l).commentLines = st.commentLines + (if isCommentLine l then 1 else 0) := by
  simp only [scanLine, varStep_commentLines, fnStep_commentLines, depthStep_commentLines,
    punctStep_commentLines, lengthStep_commentLines, classifyStep_commentLines, isCommentLine]

lemma scanLine_codeLines (st : ScanState) (l : List Char) :
    (scanLine st l).codeLines = st.codeLines + (if isCodeLine l then 1 else 0) := by
  simp only [scanLine, varStep_codeLines, fnStep_codeLines, depthStep_codeLines,
    punctStep_codeLines, lengthStep_codeLines, classifyStep_codeLines, isCodeLine]

lemma foldl_scanLine_counts (lines : List (List Char)) : ∀ st : ScanState,
    (lines.foldl scanLine st).blankLines = st.blankLines + lines.countP isBlankLine ∧
    (lines.foldl scanLine st).commentLines = st.commentLines + lines.countP isCommentLine ∧
    (lines.foldl scanLine st).codeLines = st.codeLines + lines.countP isCodeLine := by
  induction lines with
  | nil => intro st; simp
  | cons l ls ih =>
    intro st
    obtain ⟨h1, h2, h3⟩ := ih (scanLine st l)
    simp only [List.foldl_cons, List.countP_cons, h1, h2, h3,
      scanLine_blankLines, scanLine_commentLines, scanLine_codeLines]
    refine ⟨?_, ?_, ?_⟩ <;> split_ifs <;> omega

/-- A single line falls in exactly one of the three classes. -/
lemma class_partition (l : List Char) :
    (if isCodeLine l then (1 : ℕ) else 0) + (if isCommentLine l then 1 else 0) +
      (if isBlankLine l then 1 else 0) = 1 := by
  unfold isCodeLine isCommentLine isBlankLine isCodeT isCommentT isBlankT
  rcases hb : (jsTrim l == []) with _ | _ <;>
    rcases hs : ("//".data.isPrefixOf (jsTrim l) || "/*".data.isPrefixOf (jsTrim l) ||
      "*".data.isPrefixOf (jsTrim l)) with _ | _ <;>
    simp [hb, hs]

/-- Every line falls in exactly one of the three classes. -/
lemma counts_partition (lines : List (List Char)) :
    lines.countP isCodeLine + lines.countP isCommentLine + lines.countP isBlankLine
      = lines.length := by
  induction lines with
  | nil => simp
  | cons l ls ih =>
    simp only [List.countP_cons, List.length_cons]
    have h := class_partition l
    split_ifs at h ⊢ <;> omega

/-- Claim C3: for every input text, the three line classes are mutually
exclusive per-line counts (blank = trimmed empty; comment = trimmed line
starting with a comment marker; code = the rest) and they sum to the number
of newline-delimited segments. -/
theorem claimC3 (code : String) (filename : String) :
    (analyzeCode code filename).codeLines + (analyzeCode code filename).commentLines +
      (analyzeCode code filename).blankLines = (analyzeCode code filename).totalLines ∧
    (analyzeCode code filename).totalLines = (splitNewlines code.data).length ∧
    (analyzeCode code filename).blankLines = (splitNewlines code.data).countP isBlankLine ∧
    (analyzeCode code filename).commentLines = (splitNewlines code.data).countP isCommentLine ∧
    (analyzeCode code filename).codeLines = (splitNewlines code.data).countP isCodeLine := by
  obtain ⟨h1, h2, h3⟩ := foldl_scanLine_counts (splitNewlines code.data) initScan
  have hb : (analyzeCode code filename).blankLines
      = (splitNewlines code.data).countP isBlankLine := by
    simp only [analyzeCode]
    rw [h1]
    simp [initScan]
  have hc : (analyzeCode code filename).commentLines
      = (splitNewlines code.data).countP isCommentLine := by
    simp only [analyzeCode]
    rw [h2]
    simp [initScan]
  have hd : (analyzeCode code filename).codeLines
      = (splitNewlines code.data).countP isCodeLine := by
    simp only [analyzeCode]
    rw [h3]
    simp [initScan]
  have ht : (analyzeCode code filename).totalLines = (splitNewlines code.data).length := by
    simp only [analyzeCode]
  refine ⟨?_, ht, hb, hc, hd⟩
  rw [hb, hc, hd, ht, counts_partition]

lemma foldl_scanLine_blank (lines : List (List Char)) (h : ∀ l ∈ lines, jsTrim l = []) :
    ∀ st : ScanState,
    (lines.foldl scanLine st).totalLength = st.totalLength ∧
    (lines.foldl scanLine st).longestLine = st.longestLine ∧
    (lines.foldl scanLine st).shortestOpt = st.shortestOpt := by
  induction lines with
  | nil => intro st; exact ⟨rfl, rfl, rfl⟩
  | cons l ls ih =>
    intro st
    have hl : jsTrim l = [] := h l (List.mem_cons_self l ls)
    have hls : ∀ x ∈ ls, jsTrim x = [] := fun x hx => h x (List.mem_cons_of_mem l hx)
    obtain ⟨h1, h2, h3⟩ := ih hls (scanLine st l)
    have hs1 : (scanLine st l).totalLength = st.totalLength := by
      simp only [scanLine, varStep_totalLength, fnStep_totalLength, depthStep_totalLength,
        punctStep_totalLength, lengthStep_of_blank _ _ hl, classifyStep_totalLength]
    have hs2 : (scanLine st l).longestLine = st.longestLine := by
      simp only [scanLine, varStep_longestLine, fnStep_longestLine, depthStep_longestLine,
        punctStep_longestLine, lengthStep_of_blank _ _ hl, classifyStep_longestLine]
    have hs3 : (scanLine st l).shortestOpt = st.shortestOpt := by
      simp only [scanLine, varStep_shortestOpt, fnStep_shortestOpt, depthStep_shortestOpt,
        punctStep_shortestOpt, lengthStep_of_blank _ _ hl, classifyStep_shortestOpt]
    refine ⟨?_, ?_, ?_⟩
    · rw [List.foldl_cons, h1, hs1]
    · rw [List.foldl_cons, h2, hs2]
    · rw [List.foldl_cons, h3, hs3]

/-- Claim C5: `analyzeCode` is total and degenerate inputs are handled: any
text whose lines are all blank yields zero average, longest and shortest
line lengths, and the empty string yields exactly one (blank) line with all
length statistics zero. -/
theorem claimC5 :
    (∀ code filename, (∀ l ∈ splitNewlines (String.data code), jsTrim l = []) →
      (analyzeCode code filename).avgLineLength = 0 ∧
      (analyzeCode code filename).longestLine = 0 ∧
      (analyzeCode code filename).shortestNonEmptyLine = 0) ∧
    ((analyzeCode "" "empty.js").totalLines = 1 ∧
     (analyzeCode "" "empty.js").codeLines = 0 ∧
     (analyzeCode "" "empty.js").blankLines = 1 ∧
     (analyzeCode "" "empty.js").avgLineLength = 0 ∧
     (analyzeCode "" "empty.js").longestLine = 0 ∧
     (analyzeCode "" "empty.js").shortestNonEmptyLine = 0) := by
  constructor
  · intro code filename h
    obtain ⟨h1, h2, h3⟩ := foldl_scanLine_blank (splitNewlines code.data) h initScan
    obtain ⟨hb, _, _⟩ := foldl_scanLine_counts (splitNewlines code.data) initScan
    have hall : (splitNewlines code.data).countP isBlankLine
        = (splitNewlines code.data).length := by
      rw [List.countP_eq_length]
      intro l hl
      simp [isBlankLine, isBlankT, h l hl]
    have hblank : (List.foldl scanLine initScan (splitNewlines code.data)).blankLines
        = (splitNewlines code.data).length := by
      rw [hb]
      simp [initScan, hall]
    refine ⟨?_, ?_, ?_⟩
    · simp only [analyzeCode]
      rw [hblank]
      simp
    · simp only [analyzeCode]
      rw [h2]
      simp [initScan]
    · simp only [analyzeCode]
      rw [h3]
      simp [initScan]
  · decide

/-- Witness for the all-blank part of claim C5 at the empty string. -/
theorem claimC5_witness :
    ((splitNewlines (String.data "")).all (fun l => jsTrim l == [])) = true ∧
    ((analyzeCode "" "blank.js").avgLineLength = 0 ∧
     (analyzeCode "" "blank.js").longestLine = 0 ∧
     (analyzeCode "" "blank.js").shortestNonEmptyLine = 0) :=
  ⟨by decide, claimC5.1 "" "blank.js" (by decide)⟩

/-- The `totals` accumulator of `calculateAggregateMood`. -/
structure Totals where
  totalLines : ℕ
  codeLines : ℕ
  commentLines : ℕ
  positiveWords : ℕ
  negativeWords : ℕ
  stressWords : ℕ
  todoCount : ℕ
  fixmeCount : ℕ
  hackCount : ℕ
  functionCount : ℕ
  deriving Repr, DecidableEq

/-- The per-file analysis result assembled by `analyzeFile`. -/
structure FileResult where
  metrics : Metrics
  moodResult : MoodResult
  suggestions : List String
  deriving Repr, DecidableEq

/-- The aggregate record returned by `calculateAggregateMood`. -/
structure AggregateResult where
  fileCount : ℕ
  totals : Totals
  avgScore : ℤ
  dominantMood : String
  moodCounts : List (String × ℕ)
  deriving Repr, DecidableEq

/-- The all-zero initial totals. -/
def zeroTotals : Totals := ⟨0, 0, 0, 0, 0, 0, 0, 0, 0, 0⟩

/-- One `totals.x += result.metrics.x` block of the aggregation loop. -/
def addTotals (t : Totals) (m : Metrics) : Totals :=
  { totalLines := t.totalLines + m.totalLines
    codeLines := t.codeLines + m.codeLines
    commentLines := t.commentLines + m.commentLines
    positiveWords := t.positiveWords + m.positiveWords
    negativeWords := t.negativeWords + m.negativeWords
    stressWords := t.stressWords + m.stressWords
    todoCount := t.todoCount + m.todoCount
    fixmeCount := t.fixmeCount + m.fixmeCount
    hackCount := t.hackCount + m.hackCount
    functionCount := t.functionCount + m.functionCount }

/-- `moodCounts[mood] = (moodCounts[mood] || 0) + 1` on an insertion-ordered
association list: increment the existing entry in place, or append a new
entry with count 1. -/
def bumpMood : List (String × ℕ) → String → List (String × ℕ)
  | [], mood => [(mood, 1)]
  | p :: rest, mood =>
    if p.1 = mood then (p.1, p.2 + 1) :: rest else p :: bumpMood rest mood

/-- One iteration of the `for (const result of results)` aggregation loop. -/
def aggStep (acc : Totals × ℤ × List (String × ℕ)) (r : FileResult) :
    Totals × ℤ × List (String × ℕ) :=
  (addTotals acc.1 r.metrics, acc.2.1 + r.moodResult.score,
   bumpMood acc.2.2 r.moodResult.mood)

/-- The tally built by the loop from the mood labels in order. -/
def moodTally (moods : List String) : List (String × ℕ) :=
  moods.foldl bumpMood []

/-- Stable descending insertion by count: an element moves ahead of another
only when its count is strictly greater, matching the stable JavaScript
`sort((a, b) => b[1] - a[1])`. -/
def insertDesc (x : String × ℕ) : List (String × ℕ) → List (String × ℕ)
  | [] => [x]
  | y :: ys => if x.2 ≥ y.2 then x :: y :: ys else y :: insertDesc x ys

/-- Stable sort of the tally by descending count. -/
def sortDesc : List (String × ℕ) → List (String × ℕ)
  | [] => []
  | x :: xs => insertDesc x (sortDesc xs)

/-- `calculateAggregateMood(results)` from `src/cli.js`: sum the metric
fields and scores, tally the moods, round the average score half up, and
take the first entry of the tally sorted by descending count.  Indexing
`[0][0]` on the empty tally throws in JavaScript, modelled by `none`. -/
def calculateAggregateMood (results : List FileResult) : Option AggregateResult :=
  let acc := results.foldl aggStep (zeroTotals, 0, [])
  match sortDesc acc.2.2 with
  | [] => none
  | top :: _ =>
    some { fileCount := results.length
           totals := acc.1
           avgScore := jsRound ((acc.2.1 : ℚ) / (results.length : ℚ))
           dominantMood := top.1
           moodCounts := acc.2.2 }

/-- The maximal count appearing in a tally. -/
def maxCount (l : List (String × ℕ)) : ℕ := (l.map Prod.snd).foldr max 0

/-- The count stored for a key, zero when absent. -/
def lookupCount (l : List (String × ℕ)) (k : String) : ℕ :=
  ((l.find? (fun p => p.1 = k)).map Prod.snd).getD 0

lemma bumpMood_ne_nil (t : List (String × ℕ)) (m : String) : bumpMood t m ≠ [] := by
  cases t with
  | nil => simp [bumpMood]
  | cons p rest =>
    unfold bumpMood
    split_ifs <;> simp

lemma foldl_bumpMood_ne_nil (moods : List String) :
    ∀ t : List (String × ℕ), t ≠ [] → moods.foldl bumpMood t ≠ [] := by
  induction moods with
  | nil => intro t ht; simpa using ht
  | cons m ms ih =>
    intro t _
    simpa using ih (bumpMood t m) (bumpMood_ne_nil t m)

lemma moodTally_ne_nil (moods : List String) (h : moods ≠ []) : moodTally moods ≠ [] := by
  cases moods with
  | nil => exact absurd rfl h
  | cons m ms =>
    unfold moodTally
    simpa using foldl_bumpMood_ne_nil ms (bumpMood [] m) (bumpMood_ne_nil [] m)

lemma insertDesc_ne_nil (x : String × ℕ) (l : List (String × ℕ)) : insertDesc x l ≠ [] := by
  cases l with
  | nil => simp [insertDesc]
  | cons y ys =>
    unfold insertDesc
    split_ifs <;> simp

lemma sortDesc_ne_nil (l : List (String × ℕ)) (h : l ≠ []) : sortDesc l ≠ [] := by
  cases l with
  | nil => exact absurd rfl h
  | cons x xs => simpa [sortDesc] using insertDesc_ne_nil x (sortDesc xs)

lemma lookupCount_nil (k : String) : lookupCount [] k = 0 := rfl

lemma lookupCount_cons (p : String × ℕ) (rest : List (String × ℕ)) (k : String) :
    lookupCount (p :: rest) k = if p.1 = k then p.2 else lookupCount rest k := by
  unfold lookupCount
  by_cases h : p.1 = k <;> simp [List.find?_cons, h]

lemma lookupCount_bumpMood (t : List (String × ℕ)) (m k : String) :
    lookupCount (bumpMood t m) k = lookupCount t k + (if k = m then 1 else 0) := by
  induction t with
  | nil =>
    by_cases h : k = m
    · simp [bumpMood, lookupCount_cons, lookupCount_nil, h]
    · have h2 : ¬(m = k) := fun e => h e.symm
      simp [bumpMood, lookupCount_cons, lookupCount_nil, h, h2]
  | cons p rest ih =>
    unfold bumpMood
    by_cases hpm : p.1 = m
    · rw [if_pos hpm]
      by_cases hk : p.1 = k
      · have hkm : k = m := by rw [← hk, hpm]
        simp [lookupCount_cons, hk, hkm]
      · have hkm : ¬(k = m) := fun he => hk (by rw [hpm, ← he])
        simp [lookupCount_cons, hk, hkm]
    · rw [if_neg hpm]
      by_cases hk : p.1 = k
      · have hkm : ¬(k = m) := fun he => hpm (by rw [hk, he])
        simp [lookupCount_cons, hk, hkm]
      · simp [lookupCount_cons, hk, ih]

lemma lookupCount_foldl (moods : List String) :
    ∀ (t : List (String × ℕ)) (k : String),
      lookupCount (moods.foldl bumpMood t) k = lookupCount t k + moods.count k := by
  induction moods with
  | nil => intro t k; simp
  | cons m ms ih =>
    intro t k
    simp only [List.foldl_cons, ih, lookupCount_bumpMood, List.count_cons]
    by_cases h : k = m
    · simp [h]
      omega
    · have h2 : ¬(m = k) := fun e => h e.symm
      simp [h, h2]

lemma lookupCount_moodTally (moods : List String) (k : String) :
    lookupCount (moodTally moods) k = moods.count k := by
  unfold moodTally
  simpa [lookupCount_nil] using lookupCount_foldl moods [] k

lemma keys_bumpMood (t : List (String × ℕ)) (m : String) :
    (bumpMood t m).map Prod.fst =
      if m ∈ t.map Prod.fst then t.map Prod.fst else t.map Prod.fst ++ [m] := by
  induction t with
  | nil => simp [bumpMood]
  | cons p rest ih =>
    unfold bumpMood
    by_cases hpm : p.1 = m
    · rw [if_pos hpm]
      simp [hpm]
    · rw [if_neg hpm]
      have : ¬(m = p.1) := fun e => hpm e.symm
      by_cases hm : m ∈ rest.map Prod.fst <;>
        simp [ih, hm, this]

lemma nodup_keys_bumpMood (t : List (String × ℕ)) (m : String)
    (h : (t.map Prod.fst).Nodup) : ((bumpMood t m).map Prod.fst).Nodup := by
  rw [keys_bumpMood]
  split_ifs with hm
  · exact h
  · refine List.Nodup.append h (List.nodup_singleton m) ?_
    intro a ha hb
    rw [List.mem_singleton] at hb
    exact hm (hb ▸ ha)

lemma nodup_keys_foldl (moods : List String) :
    ∀ t : List (String × ℕ), (t.map Prod.fst).Nodup →
      ((moods.foldl bumpMood t).map Prod.fst).Nodup := by
  induction moods with
  | nil => intro t h; simpa using h
  | cons m ms ih =>
    intro t h
    simpa using ih (bumpMood t m) (nodup_keys_bumpMood t m h)

lemma nodup_keys_moodTally (moods : List String) :
    ((moodTally moods).map Prod.fst).Nodup := by
  unfold moodTally
  exact nodup_keys_foldl moods [] (by simp)

lemma lookupCount_of_mem (l : List (String × ℕ)) (h : (l.map Prod.fst).Nodup)
    (p : String × ℕ) (hp : p ∈ l) : lookupCount l p.1 = p.2 := by
  induction l with
  | nil => cases hp
  | cons q rest ih =>
    rcases List.mem_cons.mp hp with rfl | hrest
    · simp [lookupCount_cons]
    · have hq : ¬(q.1 = p.1) := by
        intro he
        have : p.1 ∈ rest.map Prod.fst := List.mem_map_of_mem Prod.fst hrest
        rw [List.map_cons, List.nodup_cons] at h
        exact h.1 (he ▸ this)
      rw [lookupCount_cons, if_neg hq]
      rw [List.map_cons, List.nodup_cons] at h
      exact ih h.2 hrest

lemma mem_of_lookupCount_pos (l : List (String × ℕ)) (k : String)
    (h : 0 < lookupCount l k) : (k, lookupCount l k) ∈ l := by
  induction l with
  | nil => simp [lookupCount_nil] at h
  | cons q rest ih =>
    rw [lookupCount_cons] at h ⊢
    by_cases hq : q.1 = k
    · rw [if_pos hq] at h ⊢
      exact List.mem_cons.mpr (Or.inl (by rw [← hq]))
    · rw [if_neg hq] at h ⊢
      exact List.mem_cons_of_mem q (ih h)

lemma le_maxCount (l : List (String × ℕ)) (p : String × ℕ) (hp : p ∈ l) :
    p.2 ≤ maxCount l := by
  induction l with
  | nil => cases hp
  | cons q rest ih =>
    rcases List.mem_cons.mp hp with rfl | hrest
    · simp [maxCount]
    · have := ih hrest
      simp only [maxCount, List.map_cons, List.foldr_cons] at this ⊢
      omega

lemma maxCount_cons (q : String × ℕ) (rest : List (String × ℕ)) :
    maxCount (q :: rest) = max q.2 (maxCount rest) := rfl

lemma insertDesc_head (x : String × ℕ) (l : List (String × ℕ)) :
    (insertDesc x l).head? =
      some (match l with
        | [] => x
        | y :: _ => if x.2 ≥ y.2 then x else y) := by
  cases l with
  | nil => rfl
  | cons y ys =>
    unfold insertDesc
    split_ifs with h <;> simp [h]

lemma head_sortDesc (l : List (String × ℕ)) :
    (sortDesc l).head? = l.find? (fun p => p.2 = maxCount l) := by
  induction l with
  | nil => rfl
  | cons x xs ih =>
    cases hxs : xs with
    | nil =>
      simp [sortDesc, insertDesc, maxCount, List.find?_cons]
    | cons y ys =>
      rw [← hxs]
      have hne : sortDesc xs ≠ [] := sortDesc_ne_nil xs (by rw [hxs]; simp)
      obtain ⟨h0, t0, hht⟩ : ∃ h0 t0, sortDesc xs = h0 :: t0 := by
        cases hs : sortDesc xs with
        | nil => exact absurd hs hne
        | cons a b => exact ⟨a, b, rfl⟩
      have hfind : xs.find? (fun p => p.2 = maxCount xs) = some h0 := by
        rw [← ih, hht]; rfl
      have hmax : h0.2 = maxCount xs := by
        have := List.find?_some hfind
        simpa using this
      show (insertDesc x (sortDesc xs)).head? = _
      rw [hht, insertDesc_head]
      by_cases hge : x.2 ≥ maxCount xs
      · have hcond : x.2 ≥ h0.2 := by rw [hmax]; exact hge
        have hmx : maxCount (x :: xs) = x.2 := by
          rw [maxCount_cons]; omega
        rw [List.find?_cons_of_pos]
        · simp [hcond]
        · simp [hmx]
      · have hcond : ¬(x.2 ≥ h0.2) := by rw [hmax]; exact hge
        have hmx : maxCount (x :: xs) = maxCount xs := by
          rw [maxCount_cons]; omega
        rw [List.find?_cons_of_neg]
        · simp only [hmx, hfind]
          simp [hcond]
        · simp [hmx]
          omega

lemma foldl_aggStep (results : List FileResult) :
    ∀ (t : Totals) (s : ℤ) (ty : List (String × ℕ)),
      results.foldl aggStep (t, s, ty) =
        ({ totalLines := t.totalLines + (results.map (fun r => r.metrics.totalLines)).sum
           codeLines := t.codeLines + (results.map (fun r => r.metrics.codeLines)).sum
           commentLines := t.commentLines + (results.map (fun r => r.metrics.commentLines)).sum
           positiveWords := t.positiveWords + (results.map (fun r => r.metrics.positiveWords)).sum
           negativeWords := t.negativeWords + (results.map (fun r => r.metrics.negativeWords)).sum
           stressWords := t.stressWords + (results.map (fun r => r.metrics.stressWords)).sum
           todoCount := t.todoCount + (results.map (fun r => r.metrics.todoCount)).sum
           fixmeCount := t.fixmeCount + (results.map (fun r => r.metrics.fixmeCount)).sum
           hackCount := t.hackCount + (results.map (fun r => r.metrics.hackCount)).sum
           functionCount := t.functionCount + (results.map (fun r => r.metrics.functionCount)).sum },
         s + (results.map (fun r => r.moodResult.score)).sum,
         (results.map (fun r => r.moodResult.mood)).foldl bumpMood ty) := by
  induction results with
  | nil =>
    intro t s ty
    simp
  | cons r rs ih =>
    intro t s ty
    simp only [List.foldl_cons, aggStep, ih, addTotals, List.map_cons, List.sum_cons,
      Prod.mk.injEq, Totals.mk.injEq]
    refine ⟨⟨?_, ?_, ?_, ?_, ?_, ?_, ?_, ?_, ?_, ?_⟩, ?_, ?_⟩ <;>
      first | omega | rfl | trivial

lemma calculateAggregateMood_eq (results : List FileResult) (top : String × ℕ)
    (rest : List (String × ℕ))
    (hsort : sortDesc (moodTally (results.map (fun r => r.moodResult.mood))) = top :: rest) :
    calculateAggregateMood results = some
      { fileCount := results.length
        totals :=
          { totalLines := (results.map (fun r => r.metrics.totalLines)).sum
            codeLines := (results.map (fun r => r.metrics.codeLines)).sum
            commentLines := (results.map (fun r => r.metrics.commentLines)).sum
            positiveWords := (results.map (fun r => r.metrics.positiveWords)).sum
            negativeWords := (results.map (fun r => r.metrics.negativeWords)).sum
            stressWords := (results.map (fun r => r.metrics.stressWords)).sum
            todoCount := (results.map (fun r => r.metrics.todoCount)).sum
            fixmeCount := (results.map (fun r => r.metrics.fixmeCount)).sum
            hackCount := (results.map (fun r => r.metrics.hackCount)).sum
            functionCount := (results.map (fun r => r.metrics.functionCount)).sum }
        avgScore := jsRound ((((results.map (fun r => r.moodResult.score)).sum : ℤ) : ℚ) /
          (results.length : ℚ))
        dominantMood := top.1
        moodCounts := moodTally (results.map (fun r => r.moodResult.mood)) } := by
  simp only [calculateAggregateMood]
  rw [foldl_aggStep]
  have hta : (results.map (fun r => r.moodResult.mood)).foldl bumpMood []
      = moodTally (results.map (fun r => r.moodResult.mood)) := rfl
  simp only [hta, hsort, zeroTotals]
  simp

/-- The spec contract for the aggregation reduction: some aggregate exists
whose totals are the field-wise sums, whose average score is the scores'
mean rounded half up, whose tally is the insertion-ordered mood tally with
counts equal to the occurrence counts among the inputs, and whose dominant
mood is the first tally entry attaining the maximal count. -/
def aggregateMatchesSpec (results : List FileResult) : Prop :=
  ∃ a, calculateAggregateMood results = some a ∧
    a.fileCount = results.length ∧
    a.totals.totalLines = (results.map (fun r => r.metrics.totalLines)).sum ∧
    a.totals.codeLines = (results.map (fun r => r.metrics.codeLines)).sum ∧
    a.totals.commentLines = (results.map (fun r => r.metrics.commentLines)).sum ∧
    a.totals.positiveWords = (results.map (fun r => r.metrics.positiveWords)).sum ∧
    a.totals.negativeWords = (results.map (fun r => r.metrics.negativeWords)).sum ∧
    a.totals.stressWords = (results.map (fun r => r.metrics.stressWords)).sum ∧
    a.totals.todoCount = (results.map (fun r => r.metrics.todoCount)).sum ∧
    a.totals.fixmeCount = (results.map (fun r => r.metrics.fixmeCount)).sum ∧
    a.totals.hackCount = (results.map (fun r => r.metrics.hackCount)).sum ∧
    a.totals.functionCount = (results.map (fun r => r.metrics.functionCount)).sum ∧
    a.avgScore = jsRound ((((results.map (fun r => r.moodResult.score)).sum : ℤ) : ℚ) /
      (results.length : ℚ)) ∧
    a.moodCounts = moodTally (results.map (fun r => r.moodResult.mood)) ∧
    (∀ p ∈ a.moodCounts, p.2 = (results.map (fun r => r.moodResult.mood)).count p.1) ∧
    (∀ m ∈ results.map (fun r => r.moodResult.mood), ∃ n, (m, n) ∈ a.moodCounts) ∧
    some a.dominantMood =
      (a.moodCounts.find? (fun p => p.2 = maxCount a.moodCounts)).map Prod.fst ∧
    (∃ n, (a.dominantMood, n) ∈ a.moodCounts ∧ ∀ p ∈ a.moodCounts, p.2 ≤ n)

/-- Claim C7: for every non-empty result list, `calculateAggregateMood` is
the pure reduction the spec describes: field-wise sums, the average score
rounded half up, and the dominant mood being the most frequent label with
ties broken by first-encountered insertion order of the tally. -/
theorem claimC7 (results : List FileResult) (h : results ≠ []) :
    aggregateMatchesSpec results := by
  have hmoods : results.map (fun r => r.moodResult.mood) ≠ [] := by simp [h]
  have htal : moodTally (results.map (fun r => r.moodResult.mood)) ≠ [] :=
    moodTally_ne_nil _ hmoods
  have hsne : sortDesc (moodTally (results.map (fun r => r.moodResult.mood))) ≠ [] :=
    sortDesc_ne_nil _ htal
  obtain ⟨top, rest, hsort⟩ :
      ∃ top rest, sortDesc (moodTally (results.map (fun r => r.moodResult.mood)))
        = top :: rest := by
    cases hs : sortDesc (moodTally (results.map (fun r => r.moodResult.mood))) with
    | nil => exact absurd hs hsne
    | cons a b => exact ⟨a, b, rfl⟩
  have hcalc := calculateAggregateMood_eq results top rest hsort
  have hfind : (moodTally (results.map (fun r => r.moodResult.mood))).find?
      (fun p => p.2 = maxCount (moodTally (results.map (fun r => r.moodResult.mood))))
      = some top := by
    rw [← head_sortDesc, hsort]
    rfl
  have htopmem : top ∈ moodTally (results.map (fun r => r.moodResult.mood)) :=
    List.mem_of_find?_eq_some hfind
  have htopmax : top.2 = maxCount (moodTally (results.map (fun r => r.moodResult.mood))) := by
    have := List.find?_some hfind
    simpa using this
  refine ⟨_, hcalc, rfl, rfl, rfl, rfl, rfl, rfl, rfl, rfl, rfl, rfl, rfl, rfl, rfl,
    ?_, ?_, ?_, ?_⟩
  · intro p hp
    have hmem : p ∈ moodTally (results.map (fun r => r.moodResult.mood)) := hp
    have := lookupCount_of_mem _ (nodup_keys_moodTally _) p hmem
    rw [← this, lookupCount_moodTally]
  · intro m hm
    have hcount : 0 < (results.map (fun r => r.moodResult.mood)).count m :=
      List.count_pos_iff.mpr hm
    have hpos : 0 < lookupCount (moodTally (results.map (fun r => r.moodResult.mood))) m := by
      rw [lookupCount_moodTally]
      exact hcount
    exact ⟨_, mem_of_lookupCount_pos _ _ hpos⟩
  · rw [hfind]
    rfl
  · refine ⟨top.2, ?_, ?_⟩
    · simpa using htopmem
    · intro p hp
      rw [htopmax]
      exact le_maxCount _ p hp

/-- Claim C10: the aggregation is well-defined exactly on non-empty input:
the empty list has an empty tally, so the dominant-mood indexing fails
(`none`), while every non-empty list produces an aggregate. -/
theorem claimC10 :
    calculateAggregateMood [] = none ∧
    ∀ results : List FileResult, results ≠ [] →
      ∃ a, calculateAggregateMood results = some a := by
  constructor
  · rfl
  · intro results h
    have hmoods : results.map (fun r => r.moodResult.mood) ≠ [] := by simp [h]
    have htal : moodTally (results.map (fun r => r.moodResult.mood)) ≠ [] :=
      moodTally_ne_nil _ hmoods
    have hsne : sortDesc (moodTally (results.map (fun r => r.moodResult.mood))) ≠ [] :=
      sortDesc_ne_nil _ htal
    obtain ⟨top, rest, hsort⟩ :
        ∃ top rest, sortDesc (moodTally (results.map (fun r => r.moodResult.mood)))
          = top :: rest := by
      cases hs : sortDesc (moodTally (results.map (fun r => r.moodResult.mood))) with
      | nil => exact absurd hs hsne
      | cons a b => exact ⟨a, b, rfl⟩
    exact ⟨_, calculateAggregateMood_eq results top rest hsort⟩

/-- A concrete per-file result with score 70 and mood `happy`. -/
def fileResultA : FileResult :=
  { metrics := metricsVariantA
    moodResult := { mood := "happy", score := 70, emoji := "😊",
                    description := "Pleasant vibes here! The code seems well-maintained and loved.",
                    isZen := false, isChaotic := false, isMysterious := false }
    suggestions := [] }

/-- A concrete per-file result with score 35 and mood `stressed`. -/
def fileResultB : FileResult :=
  { metrics := metricsVariantB
    moodResult := { mood := "stressed", score := 35, emoji := "😰",
                    description := "Uh oh! This code might be under some pressure. Watch out for deadlines!",
                    isZen := false, isChaotic := false, isMysterious := false }
    suggestions := [] }

/-- Witness for claim C7 at the spec example: two files with scores 70 and
35, whose average 52.5 rounds half up to 53. -/
theorem claimC7_witness :
    aggregateMatchesSpec [fileResultA, fileResultB] ∧
    jsRound ((((([fileResultA, fileResultB].map (fun r => r.moodResult.score)).sum : ℤ)) : ℚ) /
      (([fileResultA, fileResultB] : List FileResult).length : ℚ)) = 53 :=
  ⟨claimC7 [fileResultA, fileResultB] (List.cons_ne_nil _ _),
   by norm_num [fileResultA, fileResultB, jsRound]⟩

/-- Witness for the non-empty branch of claim C10 at a singleton list. -/
theorem claimC10_witness :
    ∃ a, calculateAggregateMood [fileResultA] = some a :=
  claimC10.2 [fileResultA] (List.cons_ne_nil _ _)
